import Mathlib

/-!
Shallow embedding of the cache-and-forward engine of `src/server.js`
(the yahoo-finance-proxy).  The embedding covers:

* the cache table and its helpers (`cacheGet`, `cacheSet`, `isFresh`,
  `isStaleOk`, lines 50-77 of the source),
* the upstream fetcher `fetchWithRetry` (lines 83-123), modelled as a
  function of the list of outcomes the network would give to the
  successive `fetch` calls,
* the coordinator `cachedForward` (lines 131-208), modelled as an
  event-loop state machine: each inbound request is a task that runs
  synchronously up to its next `await`, and external events settle the
  fetch promises.  This mirrors JavaScript's run-to-completion
  scheduling: a task's synchronous segment is a single atomic step.

Times are naturals (milliseconds); every `Date.now()` call reads the
time carried by the event that triggered the segment, since a
synchronous JavaScript segment runs at one tick.
-/

namespace YahooProxy

/-- Configuration, lines 42-43: `CACHE_TTL_MS` and `STALE_TTL_MS`. -/
structure Config where
  cacheTTLms : Nat
  staleTTLms : Nat
deriving Repr, DecidableEq

/-- A cache entry, line 50 and lines 61-68: `storedAt`, `expiresAt`
(fresh until), `staleUntil`, the upstream `status`, the recorded
content-type header and the body text. -/
structure CacheEntry where
  storedAt : Nat
  expiresAt : Nat
  staleUntil : Nat
  status : Nat
  contentType : String
  bodyText : String
deriving Repr, DecidableEq

/-- The cache table: an association list standing for the JS `Map`. -/
abbrev Cache := List (String × CacheEntry)

/-- JS `Map.get`: the value stored under the first matching key. -/
def mapGet {α : Type} (m : List (String × α)) (k : String) : Option α :=
  match m.find? (fun p => p.1 == k) with
  | some p => some p.2
  | none => none

/-- JS `Map.set`: replace any previous binding of the key. -/
def mapSet {α : Type} (m : List (String × α)) (k : String) (v : α) :
    List (String × α) :=
  (k, v) :: m.filter (fun p => !(p.1 == k))

/-- JS `Map.delete`. -/
def mapDel {α : Type} (m : List (String × α)) (k : String) :
    List (String × α) :=
  m.filter (fun p => !(p.1 == k))

/-- Source `cacheGet`, lines 53-57 (returns the entry or null; no eviction). -/
def cacheGet (c : Cache) (k : String) : Option CacheEntry := mapGet c k

/-- Source `cacheSet`, lines 59-69: store the entry with `storedAt = now`,
`expiresAt = now + CACHE_TTL_MS`, `staleUntil = now + STALE_TTL_MS`. -/
def cacheSet (cfg : Config) (c : Cache) (k : String) (now status : Nat)
    (ct body : String) : Cache :=
  mapSet c k
    { storedAt := now
      expiresAt := now + cfg.cacheTTLms
      staleUntil := now + cfg.staleTTLms
      status := status
      contentType := ct
      bodyText := body }

/-- Source `isFresh`, lines 71-73: `entry && Date.now() <= entry.expiresAt`. -/
def isFresh (e : Option CacheEntry) (now : Nat) : Bool :=
  match e with
  | some v => decide (now ≤ v.expiresAt)
  | none => false

/-- Source `isStaleOk`, lines 75-77: `entry && Date.now() <= entry.staleUntil`. -/
def isStaleOk (e : Option CacheEntry) (now : Nat) : Bool :=
  match e with
  | some v => decide (now ≤ v.staleUntil)
  | none => false

/-! ## The upstream fetcher, lines 83-123 -/

/-- What the network gives back to one `fetch(url, ...)` call: either a
response (status, the parsed numeric `retry-after` header in seconds if
present, the `content-type` header if present and non-empty, and the
body text), or a network-level rejection of the `fetch` promise. -/
inductive Attempt where
  | response (status : Nat) (retryAfter : Option Nat)
      (contentType : Option String) (body : String)
  | netError
deriving Repr, DecidableEq

/-- A successful fetch: the `res` returned at line 99, reduced to the
fields `cachedForward` reads from it (status, content-type, text). -/
structure FetchSuccess where
  status : Nat
  contentType : Option String
  body : String
deriving Repr, DecidableEq

/-- The errors `fetchWithRetry` can throw.  `retryExhausted` is the
`lastErr` of line 122 (it carries `.status`, line 110); `nonRetryable`
is the throw of lines 114-119 (status plus a 200-character body
snippet); `network` is a rejection of `fetch` itself, which propagates
with no `.status` field; `noAttempts` is the fallback error of line 122
when the loop never ran. -/
inductive FetchError where
  | retryExhausted (lastStatus : Nat)
  | nonRetryable (status : Nat) (snippet : String)
  | network
  | noAttempts
deriving Repr, DecidableEq

/-- The JavaScript read `e?.status`. -/
def FetchError.statusOf : FetchError → Option Nat
  | .retryExhausted s => some s
  | .nonRetryable s _ => some s
  | .network => none
  | .noAttempts => none

/-- JS `res.ok`: status in the 2xx range. -/
def okStatus (s : Nat) : Bool := decide (200 ≤ s ∧ s ≤ 299)

/-- Line 102: retry only on 429 or 5xx. -/
def retryableStatus (s : Nat) : Bool :=
  s == 429 || decide (500 ≤ s ∧ s ≤ 599)

/-- Lines 104-106: the computed backoff wait in milliseconds for
zero-based attempt `i`. -/
def backoffWait (retryAfter : Option Nat) (i : Nat) : Nat :=
  match retryAfter with
  | some hint => min 10000 (hint * 1000)
  | none => min 10000 (500 * 2 ^ i)

/-- JS `text.slice(0, n)`, by code units. -/
def sliceTo (s : String) (n : Nat) : String := ⟨s.data.take n⟩

/-- The result of `fetchWithRetry` together with the delays it slept
(line 108, in order) and how many `fetch` calls it issued. -/
inductive FetchResult where
  | ok (s : FetchSuccess)
  | error (e : FetchError)
deriving Repr, DecidableEq

structure FetchOutcome where
  result : FetchResult
  waits : List Nat
  attemptsMade : Nat
deriving Repr, DecidableEq

/-- The loop of lines 86-120.  `attempts` holds what the network would
answer to the successive `fetch` calls (the loop stops early on success
or a non-retryable error); `i` is the zero-based loop counter; `last`
is the status recorded in `lastErr`, if any.  Falling off the list is
reaching line 122. -/
def fetchGo : List Attempt → Nat → Option Nat → FetchOutcome
  | [], _, last =>
    { result := .error
        (match last with
         | some s => .retryExhausted s
         | none => .noAttempts)
      waits := []
      attemptsMade := 0 }
  | .netError :: _, _, _ =>
    { result := .error .network, waits := [], attemptsMade := 1 }
  | .response st ra ct body :: rest, i, _ =>
    if okStatus st then
      { result := .ok ⟨st, ct, body⟩, waits := [], attemptsMade := 1 }
    else if retryableStatus st then
      { result := (fetchGo rest (i + 1) (some st)).result
        waits := backoffWait ra i :: (fetchGo rest (i + 1) (some st)).waits
        attemptsMade := (fetchGo rest (i + 1) (some st)).attemptsMade + 1 }
    else
      { result := .error (.nonRetryable st (sliceTo body 200))
        waits := []
        attemptsMade := 1 }

/-- Source `fetchWithRetry(url, { tries })` where `tries = attempts.length`:
the network behaviour for each of the up-to-`tries` calls is given by
`attempts`. -/
def fetchWithRetry (attempts : List Attempt) : FetchOutcome :=
  fetchGo attempts 0 none

/-- An attempt outcome on which the loop of line 102 retries. -/
def Attempt.retryable : Attempt → Bool
  | .response st _ _ _ => retryableStatus st
  | .netError => false

/-! ## The coordinator `cachedForward`, lines 131-208 -/

/-- The `X-Cache` header value. -/
inductive Disposition where
  | hit
  | hitAfterWait
  | miss
  | stale
deriving Repr, DecidableEq

/-- A response served to the caller: status, `Content-Type`, body,
`X-Cache` disposition, and the `X-Upstream-Error` header when present
(on STALE responses; its inner value is the upstream status, `none`
rendering as "unknown", line 192). -/
structure Served where
  status : Nat
  contentType : String
  body : String
  disposition : Disposition
  upstreamError : Option (Option Nat)
deriving Repr, DecidableEq

/-- The hard-failure JSON of lines 199-204: a 502 carrying the upstream
status when known and the remediation hint. -/
inductive Outcome where
  | served (r : Served)
  | badGateway (upstreamStatus : Option Nat) (hint : String)
deriving Repr, DecidableEq

/-- The hint string of line 203. -/
def gatewayHint : String :=
  "Yahoo is rate-limiting this server. Increase CACHE_TTL_MS and reduce client request frequency."

/-- The recurring pattern `x || "application/json"` on a stored
content-type string (lines 139, 151, 180, 194): the empty string is
falsy in JavaScript. -/
def orJsonCT (s : String) : String :=
  if s = "" then "application/json" else s

/-- Line 166: `upstreamRes.headers.get("content-type") || "application/json"`
(`get` yields null when absent; the empty string is falsy). -/
def headerOrJson (o : Option String) : String := orJsonCT (o.getD "")

/-- Lines 136-140: the fresh-hit response. -/
def hitServe (e : CacheEntry) : Served :=
  ⟨e.status, orJsonCT e.contentType, e.bodyText, .hit, none⟩

/-- Lines 148-152: the response served after a successful coalesced
wait re-reads the cache. -/
def hitAfterWaitServe (e : CacheEntry) : Served :=
  ⟨e.status, orJsonCT e.contentType, e.bodyText, .hitAfterWait, none⟩

/-- Lines 176-181: the MISS response after this request's own fetch
resolved, built from the cache re-read.  `fresh?.status || 200`,
`fresh?.headers["content-type"] || "application/json"` and
`fresh?.bodyText || "{}"`, with JavaScript falsiness (0 and the empty
string fall back to the defaults). -/
def missServe : Option CacheEntry → Served
  | some f =>
    ⟨if f.status = 0 then 200 else f.status,
     orJsonCT f.contentType,
     if f.bodyText = "" then "\x7b\x7d" else f.bodyText,
     .miss, none⟩
  | none => ⟨200, "application/json", "\x7b\x7d", .miss, none⟩

/-- Lines 190-195: the STALE response. -/
def staleServe (e : CacheEntry) (upstreamStatus : Option Nat) : Served :=
  ⟨e.status, orJsonCT e.contentType, e.bodyText, .stale, some upstreamStatus⟩

/-- Lines 187-188: `upstreamStatus === 429 || (upstreamStatus >= 500 &&
upstreamStatus <= 599) || !upstreamStatus`.  An absent status (or a
zero one) is falsy, hence eligible. -/
def isRateLimitOr5xx (us : Option Nat) : Bool :=
  match us with
  | some v => v == 429 || decide (500 ≤ v ∧ v ≤ 599) || v == 0
  | none => true

/-- The state of one fetch promise `p` (line 161): pending until its
fetch settles; on success the cache write (line 169) happened before it
resolved; on failure it rejected with the fetcher's error. -/
inductive PromState where
  | pending
  | resolved
  | rejected (e : FetchError)
deriving Repr, DecidableEq

/-- The program counter of one inbound request running
`cachedForward`.  A synchronous segment ends either in a response
(`done`) or suspended at one of the two `await`s: line 146
(`waitingCoalesce`) or line 175 (`waitingOwn`). -/
inductive TaskPC where
  | notStarted
  | waitingCoalesce (pid : Nat)
  | waitingOwn (pid : Nat)
  | done (out : Outcome)
deriving Repr, DecidableEq

structure Task where
  key : String
  pc : TaskPC
deriving Repr, DecidableEq

/-- The shared event-loop state: configuration, the two tables of
lines 50-51, the created promises (with the key each one fetches for),
a counter of fetcher invocations, and the request tasks. -/
structure Sys where
  cfg : Config
  cache : Cache
  inflight : List (String × Nat)
  promises : List (Nat × String × PromState)
  nextPid : Nat
  fetchCount : Nat
  tasks : List Task
deriving Repr, DecidableEq

def promState (s : Sys) (pid : Nat) : Option PromState :=
  match s.promises.find? (fun p => p.1 == pid) with
  | some p => some p.2.2
  | none => none

def promSet (ps : List (Nat × String × PromState)) (pid : Nat)
    (k : String) (st : PromState) : List (Nat × String × PromState) :=
  (pid, k, st) :: ps.filter (fun p => !(p.1 == pid))

/-- Lines 161-172 and the transition to line 175: create the promise
(which immediately invokes the fetcher), register it in `inflight`, and
suspend this task awaiting it.  All of this is one synchronous segment,
hence one atomic step. -/
def startOwnFetch (s : Sys) (i : Nat) (k : String) : Sys :=
  { s with
    promises := (s.nextPid, k, .pending) :: s.promises
    nextPid := s.nextPid + 1
    fetchCount := s.fetchCount + 1
    inflight := mapSet s.inflight k s.nextPid
    tasks := s.tasks.set i ⟨k, .waitingOwn s.nextPid⟩ }

/-- Lines 143-158 falling into 160-172: with no fresh entry, either
coalesce on an existing in-flight promise or start an own fetch. -/
def startOrCoalesce (s : Sys) (i : Nat) (k : String) : Sys :=
  match mapGet s.inflight k with
  | some pid => { s with tasks := s.tasks.set i ⟨k, .waitingCoalesce pid⟩ }
  | none => startOwnFetch s i k

/-- The first synchronous segment of `cachedForward` (lines 131-172)
for task `i`, run at time `t`. -/
def runStart (s : Sys) (i : Nat) (t : Nat) : Sys :=
  match s.tasks.get? i with
  | some tk =>
    match tk.pc with
    | .notStarted =>
      match cacheGet s.cache tk.key with
      | some v =>
        if isFresh (some v) t then
          { s with tasks := s.tasks.set i ⟨tk.key, .done (.served (hitServe v))⟩ }
        else startOrCoalesce s i tk.key
      | none => startOrCoalesce s i tk.key
    | _ => s
  | none => s

/-- The segment resuming task `i` at time `t` after the promise it
awaits has settled (a no-op while it is still pending).

From `waitingCoalesce` (lines 146-158): on resolution re-read the cache
and serve HIT-AFTER-WAIT, falling through to the new fetch of line 161
if the read missed; on rejection the catch of lines 155-157 swallows
the error and control likewise falls through to line 161, so the task
registers and issues its own fetch.

From `waitingOwn` (lines 174-207): on resolution serve the MISS
response of lines 176-181; on rejection run the stale-on-error handler
of lines 182-204.  Both paths run the `finally` of lines 205-207,
deleting the key from `inflight`. -/
def runResume (s : Sys) (i : Nat) (t : Nat) : Sys :=
  match s.tasks.get? i with
  | some tk =>
    match tk.pc with
    | .waitingCoalesce pid =>
      match promState s pid with
      | some .pending => s
      | some .resolved =>
        match cacheGet s.cache tk.key with
        | some aft =>
          { s with tasks := s.tasks.set i ⟨tk.key, .done (.served (hitAfterWaitServe aft))⟩ }
        | none => startOwnFetch s i tk.key
      | some (.rejected _) => startOwnFetch s i tk.key
      | none => s
    | .waitingOwn pid =>
      match promState s pid with
      | some .pending => s
      | some .resolved =>
        { s with
          tasks := s.tasks.set i
            ⟨tk.key, .done (.served (missServe (cacheGet s.cache tk.key)))⟩
          inflight := mapDel s.inflight tk.key }
      | some (.rejected e) =>
        let still := cacheGet s.cache tk.key
        let out : Outcome :=
          if isRateLimitOr5xx e.statusOf && isStaleOk still t then
            match still with
            | some v => .served (staleServe v e.statusOf)
            | none => .badGateway e.statusOf gatewayHint
          else .badGateway e.statusOf gatewayHint
        { s with
          tasks := s.tasks.set i ⟨tk.key, .done out⟩
          inflight := mapDel s.inflight tk.key }
      | none => s
    | _ => s
  | none => s

/-- A fetch promise settles at time `t`: the network behaviour of its
up to two `fetch` calls (`{ tries: 2 }`, line 162) is `attempts`.  On
success the body of the promise (lines 161-170) reads the text and
content-type and writes the cache before resolving; on failure the
promise rejects with the fetcher's error. -/
def runSettle (s : Sys) (pid : Nat) (attempts : List Attempt) (t : Nat) : Sys :=
  match s.promises.find? (fun p => p.1 == pid) with
  | some (_, k, .pending) =>
    match (fetchWithRetry (attempts.take 2)).result with
    | .ok r =>
      { s with
        cache := cacheSet s.cfg s.cache k t r.status (headerOrJson r.contentType) r.body
        promises := promSet s.promises pid k .resolved }
    | .error e =>
      { s with promises := promSet s.promises pid k (.rejected e) }
  | _ => s

/-- One event of the event loop: a request handler starts, a suspended
request resumes after the promise it awaits settled, or a fetch
completes.  A schedule is a list of events; only JavaScript-realizable
schedules are used in the theorems below. -/
inductive Event where
  | start (i : Nat) (t : Nat)
  | resume (i : Nat) (t : Nat)
  | settle (pid : Nat) (attempts : List Attempt) (t : Nat)
deriving Repr, DecidableEq

def step (s : Sys) : Event → Sys
  | .start i t => runStart s i t
  | .resume i t => runResume s i t
  | .settle pid atts t => runSettle s pid atts t

def run (s : Sys) (evs : List Event) : Sys := evs.foldl step s

def Event.isStart : Event → Bool
  | .start _ _ => true
  | _ => false

def Event.isResume : Event → Bool
  | .resume _ _ => true
  | _ => false

/-- The shape of the shared state while the single initial fetch of a
burst of same-key requests is still pending: the cache is empty, the
one promise (pid 0) is registered and pending, the fetcher ran once,
and every task is untouched, the owner, or a coalesced waiter. -/
def phaseA (k : String) (s : Sys) : Prop :=
  s.cache = [] ∧ s.inflight = [(k, 0)] ∧ s.promises = [(0, k, .pending)] ∧
  s.nextPid = 1 ∧ s.fetchCount = 1 ∧
  ∀ tk ∈ s.tasks, tk.key = k ∧
    (tk.pc = .notStarted ∨ tk.pc = .waitingOwn 0 ∨ tk.pc = .waitingCoalesce 0)

/-- The shape of the shared state after that fetch settled
successfully: the key is cached, the promise is resolved, and the
fetcher still ran only once. -/
def phaseB (k : String) (s : Sys) : Prop :=
  (∃ v, cacheGet s.cache k = some v) ∧ s.promises = [(0, k, .resolved)] ∧
  s.fetchCount = 1 ∧
  ∀ tk ∈ s.tasks, tk.key = k ∧
    (tk.pc = .notStarted ∨ tk.pc = .waitingOwn 0 ∨ tk.pc = .waitingCoalesce 0 ∨
      ∃ out, tk.pc = .done out)

/-! ## Helper lemmas -/

theorem mapGet_mapSet_self {α : Type} (m : List (String × α)) (k : String)
    (v : α) : mapGet (mapSet m k v) k = some v := by
  simp [mapGet, mapSet, List.find?]

theorem mapGet_mapDel_self {α : Type} (m : List (String × α)) (k : String) :
    mapGet (mapDel m k) k = none := by
  have h : List.find? (fun p => p.1 == k) (mapDel m k) = none := by
    rw [List.find?_eq_none]
    intro x hx
    simp only [mapDel] at hx
    have hx' := List.of_mem_filter hx
    simp only [Bool.not_eq_true'] at hx'
    simp [hx']
  simp [mapGet, h]

theorem mem_mapSet {α : Type} {m : List (String × α)} {k : String} {v : α}
    {p : String × α} (h : p ∈ mapSet m k v) : p = (k, v) ∨ p ∈ m := by
  rcases List.mem_cons.mp h with h | h
  · exact Or.inl h
  · exact Or.inr (List.mem_of_mem_filter h)

theorem get?_set_self {α : Type} {l : List α} {i : Nat} (a : α)
    (h : i < l.length) : (l.set i a).get? i = some a := by
  simp [List.get?_eq_getElem?, List.getElem?_set_self, List.getElem?_eq_some, h]

theorem lt_length_of_get? {α : Type} {l : List α} {i : Nat} {a : α}
    (h : l.get? i = some a) : i < l.length := by
  by_contra hlt
  rw [List.get?_eq_getElem?, List.getElem?_eq_none (by omega)] at h
  exact Option.noConfusion h

theorem retryableStatus_iff {st : Nat} :
    retryableStatus st = true ↔ (st = 429 ∨ (500 ≤ st ∧ st ≤ 599)) := by
  simp [retryableStatus]

theorem okStatus_false_iff {st : Nat} :
    okStatus st = false ↔ ¬(200 ≤ st ∧ st ≤ 299) := by
  simp [okStatus]

theorem retryable_not_ok {st : Nat} (h : retryableStatus st = true) :
    okStatus st = false := by
  rw [retryableStatus_iff] at h
  rw [okStatus_false_iff]
  omega

/-- Running the retry loop past a prefix of retryable attempts only
prepends one wait per attempt and shifts the loop counter: the final
result is that of the loop on the remaining attempts. -/
theorem fetchGo_append (pre l : List Attempt) (i : Nat) (last : Option Nat)
    (hpre : ∀ a ∈ pre, a.retryable = true) :
    ∃ last' ws, ws.length = pre.length ∧
      fetchGo (pre ++ l) i last =
        { result := (fetchGo l (i + pre.length) last').result
          waits := ws ++ (fetchGo l (i + pre.length) last').waits
          attemptsMade := pre.length + (fetchGo l (i + pre.length) last').attemptsMade } := by
  induction pre generalizing i last with
  | nil =>
    exact ⟨last, [], rfl, by simp⟩
  | cons a pre' ih =>
    match a with
    | .netError =>
      exact absurd (hpre _ (List.mem_cons_self _ _)) (by simp [Attempt.retryable])
    | .response st ra ct b =>
      have hret : retryableStatus st = true := by
        simpa [Attempt.retryable] using hpre _ (List.mem_cons_self _ _)
      have hok : okStatus st = false := retryable_not_ok hret
      obtain ⟨last', ws, hws, heq⟩ :=
        ih (i + 1) (some st) (fun x hx => hpre x (List.mem_cons_of_mem _ hx))
      refine ⟨last', backoffWait ra i :: ws, by simp [hws], ?_⟩
      have harith : i + 1 + pre'.length = i + (pre'.length + 1) := by omega
      rw [List.cons_append]
      simp only [fetchGo, hok, hret, Bool.false_eq_true, if_false, if_true, heq,
        harith]
      simp [List.length_cons, Nat.add_comm, Nat.add_assoc, Nat.add_left_comm]

theorem sliceTo_length_le (s : String) (n : Nat) : (sliceTo s n).length ≤ n := by
  simp only [sliceTo, String.length, List.length_take]
  omega

/-! ## Claim theorems -/

/-- Claim C5: for a retryable response (429 or 5xx) on zero-based
attempt `i`, the backoff wait slept by the fetcher is
`min(10000, hint * 1000)` when a numeric retry-after hint (in seconds)
was supplied, and `min(10000, 500 * 2 ^ i)` otherwise. -/
theorem backoff_wait_formula (pre : List Attempt) (st : Nat) (ra : Option Nat)
    (ct : Option String) (b : String) (rest : List Attempt)
    (hpre : ∀ a ∈ pre, a.retryable = true)
    (hst : st = 429 ∨ (500 ≤ st ∧ st ≤ 599)) :
    (fetchWithRetry (pre ++ .response st ra ct b :: rest)).waits.get? pre.length =
      some (match ra with
            | some hint => min 10000 (hint * 1000)
            | none => min 10000 (500 * 2 ^ pre.length)) := by
  have hret : retryableStatus st = true := retryableStatus_iff.mpr hst
  have hok : okStatus st = false := retryable_not_ok hret
  obtain ⟨last', ws, hws, heq⟩ :=
    fetchGo_append pre (.response st ra ct b :: rest) 0 none hpre
  unfold fetchWithRetry
  rw [heq]
  simp only [fetchGo, hok, hret, Bool.false_eq_true, if_false, if_true]
  rw [List.get?_append_right (by omega)]
  rw [hws, Nat.sub_self]
  cases ra <;> simp [backoffWait]

/-- Witness for C5 at a concrete input: a single 429 attempt with a
3-second retry-after hint sleeps 3000 ms. -/
theorem backoff_wait_formula_witness :
    (fetchWithRetry [.response 429 (some 3) none ""]).waits.get? 0 =
      some (min 10000 (3 * 1000)) := by
  have h := backoff_wait_formula [] 429 (some 3) none "" []
    (by simp) (Or.inl rfl)
  simpa using h

/-- Claim C6: a response whose status is neither 2xx nor 429 nor 5xx
makes the fetcher fail immediately: the error carries the status and
the body snippet truncated to at most 200 characters, no extra delay is
slept and no further attempt is issued. -/
theorem nonretryable_immediate (pre : List Attempt) (st : Nat) (ra : Option Nat)
    (ct : Option String) (b : String) (rest : List Attempt)
    (hpre : ∀ a ∈ pre, a.retryable = true)
    (hok : ¬(200 ≤ st ∧ st ≤ 299))
    (hnr : ¬(st = 429 ∨ (500 ≤ st ∧ st ≤ 599))) :
    (fetchWithRetry (pre ++ .response st ra ct b :: rest)).result =
      .error (.nonRetryable st (sliceTo b 200)) ∧
    (fetchWithRetry (pre ++ .response st ra ct b :: rest)).waits.length = pre.length ∧
    (fetchWithRetry (pre ++ .response st ra ct b :: rest)).attemptsMade = pre.length + 1 ∧
    (sliceTo b 200).length ≤ 200 := by
  have hok' : okStatus st = false := okStatus_false_iff.mpr hok
  have hret' : retryableStatus st = false := by
    cases hb : retryableStatus st
    · rfl
    · exact absurd (retryableStatus_iff.mp hb) hnr
  obtain ⟨last', ws, hws, heq⟩ :=
    fetchGo_append pre (.response st ra ct b :: rest) 0 none hpre
  unfold fetchWithRetry
  rw [heq]
  refine ⟨?_, ?_, ?_, sliceTo_length_le b 200⟩
  · simp [fetchGo, hok', hret']
  · simp [fetchGo, hok', hret', hws]
  · simp [fetchGo, hok', hret']

/-- Witness for C6 at a concrete input: a 404 on the first attempt. -/
theorem nonretryable_immediate_witness :
    (fetchWithRetry [.response 404 none none "not found"]).result =
      .error (.nonRetryable 404 (sliceTo "not found" 200)) ∧
    (fetchWithRetry [.response 404 none none "not found"]).waits.length = 0 ∧
    (fetchWithRetry [.response 404 none none "not found"]).attemptsMade = 0 + 1 ∧
    (sliceTo "not found" 200).length ≤ 200 := by
  have h := nonretryable_immediate [] 404 none none "not found" []
    (by simp) (by omega) (by omega)
  simpa using h

/-- Claim C7: when every attempt up to the attempt cap yields a
retryable failure, the fetcher fails with the error carrying the status
observed on the last attempt; when the failure is a network-level
rejection, the propagated error carries no status. -/
theorem exhaust_last_status :
    (∀ (pre : List Attempt) (st : Nat) (ra : Option Nat) (ct : Option String)
        (b : String),
       (∀ a ∈ pre, a.retryable = true) → (st = 429 ∨ (500 ≤ st ∧ st ≤ 599)) →
       (fetchWithRetry (pre ++ [.response st ra ct b])).result =
         .error (.retryExhausted st) ∧
       FetchError.statusOf (.retryExhausted st) = some st) ∧
    (∀ (pre rest : List Attempt), (∀ a ∈ pre, a.retryable = true) →
       (fetchWithRetry (pre ++ .netError :: rest)).result = .error .network ∧
       FetchError.statusOf .network = none) := by
  constructor
  · intro pre st ra ct b hpre hst
    have hret : retryableStatus st = true := retryableStatus_iff.mpr hst
    have hok : okStatus st = false := retryable_not_ok hret
    obtain ⟨last', ws, hws, heq⟩ :=
      fetchGo_append pre [.response st ra ct b] 0 none hpre
    unfold fetchWithRetry
    rw [heq]
    exact ⟨by simp [fetchGo, hok, hret], rfl⟩
  · intro pre rest hpre
    obtain ⟨last', ws, hws, heq⟩ :=
      fetchGo_append pre (.netError :: rest) 0 none hpre
    unfold fetchWithRetry
    rw [heq]
    exact ⟨by simp [fetchGo], rfl⟩

/-- Witness for C7 at a concrete input: both of the two attempts answer
retryably (500 then 503); the error carries the last status, 503. -/
theorem exhaust_last_status_witness :
    (fetchWithRetry [.response 500 none none "", .response 503 none none ""]).result =
      .error (.retryExhausted 503) ∧
    FetchError.statusOf (.retryExhausted 503) = some 503 := by
  have h := exhaust_last_status.1 [.response 500 none none ""] 503 none none ""
    (by decide) (by omega)
  simpa using h

theorem isStaleOk_iff {e : Option CacheEntry} {t : Nat} :
    isStaleOk e t = true ↔ ∃ v, e = some v ∧ t ≤ v.staleUntil := by
  cases e <;> simp [isStaleOk]

theorem rateLimit_iff {us : Option Nat} (h : ∀ n, us = some n → 100 ≤ n) :
    isRateLimitOr5xx us = true ↔
      (us = some 429 ∨ (∃ n, us = some n ∧ 500 ≤ n ∧ n ≤ 599) ∨ us = none) := by
  cases us with
  | none => simp [isRateLimitOr5xx]
  | some v =>
    have h100 := h v rfl
    simp only [isRateLimitOr5xx, Bool.or_eq_true, beq_iff_eq, decide_eq_true_eq,
      Option.some.injEq]
    constructor
    · rintro ((h1 | h2) | h3)
      · exact Or.inl h1
      · exact Or.inr (Or.inl ⟨v, rfl, h2⟩)
      · omega
    · rintro (h1 | ⟨n, hn, h5⟩ | h2)
      · exact Or.inl (Or.inl h1)
      · cases hn
        exact Or.inl (Or.inr h5)
      · exact absurd h2 (by simp)

/-- Resuming a request whose own fetch rejected runs the stale-on-error
handler of lines 182-204 and the `finally` of lines 205-207, leaving
the cache untouched. -/
theorem runResume_rejected (s : Sys) (i t : Nat) (k : String) (pid : Nat)
    (e : FetchError)
    (htask : s.tasks.get? i = some ⟨k, .waitingOwn pid⟩)
    (hprom : promState s pid = some (.rejected e)) :
    (runResume s i t).tasks.get? i = some ⟨k, .done
      (if isRateLimitOr5xx e.statusOf && isStaleOk (cacheGet s.cache k) t then
        match cacheGet s.cache k with
        | some v => .served (staleServe v e.statusOf)
        | none => .badGateway e.statusOf gatewayHint
      else .badGateway e.statusOf gatewayHint)⟩ ∧
    (runResume s i t).inflight = mapDel s.inflight k ∧
    (runResume s i t).cache = s.cache := by
  simp only [runResume, htask, hprom]
  exact ⟨get?_set_self _ (lt_length_of_get? htask), trivial, trivial⟩

/-- Claim C2: a request whose key holds a cache entry with
`now ≤ freshUntil` is answered with that entry's status, content type
and body under disposition HIT, with no upstream call and no change to
the cache or the in-flight table. -/
theorem fresh_hit_immediate (s : Sys) (i t : Nat) (k : String) (v : CacheEntry)
    (htask : s.tasks.get? i = some ⟨k, .notStarted⟩)
    (hentry : cacheGet s.cache k = some v)
    (hfresh : t ≤ v.expiresAt)
    (hct : v.contentType ≠ "") :
    (runStart s i t).cache = s.cache ∧
    (runStart s i t).inflight = s.inflight ∧
    (runStart s i t).promises = s.promises ∧
    (runStart s i t).fetchCount = s.fetchCount ∧
    (runStart s i t).tasks.get? i =
      some ⟨k, .done (.served ⟨v.status, v.contentType, v.bodyText, .hit, none⟩)⟩ := by
  have hlt : i < s.tasks.length := lt_length_of_get? htask
  have hfr : isFresh (some v) t = true := by simp [isFresh, hfresh]
  simp only [runStart, htask, hentry, hfr, if_true]
  refine ⟨trivial, trivial, trivial, trivial, ?_⟩
  rw [get?_set_self _ hlt]
  simp [hitServe, orJsonCT, hct]

/-- Witness for C2 at a concrete input. -/
theorem fresh_hit_immediate_witness :
    (runStart ⟨⟨120000, 900000⟩, [("k", ⟨0, 120000, 900000, 200, "text/json", "A"⟩)],
        [], [], 0, 0, [⟨"k", .notStarted⟩]⟩ 0 100).tasks.get? 0 =
      some ⟨"k", .done (.served ⟨200, "text/json", "A", .hit, none⟩)⟩ :=
  (fresh_hit_immediate _ 0 100 "k" ⟨0, 120000, 900000, 200, "text/json", "A"⟩
    (by decide) (by decide) (by decide) (by decide)).2.2.2.2

/-- Claim C3: on a failed own fetch the request is answered from the
stale cache entry (disposition STALE, annotated with the upstream
status) exactly when the failure status is 429, a 5xx, or absent, and
an entry with `now ≤ staleUntil` exists; in every other failure case it
is answered with the 502 gateway failure carrying the upstream status
when known and the remediation hint. -/
theorem stale_on_error_iff (s : Sys) (i t : Nat) (k : String) (pid : Nat)
    (e : FetchError)
    (htask : s.tasks.get? i = some ⟨k, .waitingOwn pid⟩)
    (hprom : promState s pid = some (.rejected e))
    (hhttp : ∀ n, e.statusOf = some n → 100 ≤ n) :
    ((∃ v, cacheGet s.cache k = some v ∧
        (runResume s i t).tasks.get? i = some ⟨k, .done (.served
          ⟨v.status, orJsonCT v.contentType, v.bodyText, .stale, some e.statusOf⟩)⟩)
      ↔ ((e.statusOf = some 429 ∨
            (∃ n, e.statusOf = some n ∧ 500 ≤ n ∧ n ≤ 599) ∨
            e.statusOf = none) ∧
          ∃ v, cacheGet s.cache k = some v ∧ t ≤ v.staleUntil)) ∧
    (¬((e.statusOf = some 429 ∨
          (∃ n, e.statusOf = some n ∧ 500 ≤ n ∧ n ≤ 599) ∨
          e.statusOf = none) ∧
        ∃ v, cacheGet s.cache k = some v ∧ t ≤ v.staleUntil) →
      (runResume s i t).tasks.get? i =
        some ⟨k, .done (.badGateway e.statusOf gatewayHint)⟩) := by
  obtain ⟨hdone, -, -⟩ := runResume_rejected s i t k pid e htask hprom
  constructor
  · constructor
    · rintro ⟨v, hv, hserved⟩
      rw [hdone] at hserved
      by_cases hc :
          (isRateLimitOr5xx e.statusOf && isStaleOk (cacheGet s.cache k) t) = true
      · simp only [Bool.and_eq_true] at hc
        exact ⟨(rateLimit_iff hhttp).mp hc.1, isStaleOk_iff.mp hc.2⟩
      · rw [if_neg hc] at hserved
        simp at hserved
    · rintro ⟨helig, v, hv, hstale⟩
      have h1 : isRateLimitOr5xx e.statusOf = true := (rateLimit_iff hhttp).mpr helig
      have h2 : isStaleOk (cacheGet s.cache k) t = true :=
        isStaleOk_iff.mpr ⟨v, hv, hstale⟩
      refine ⟨v, hv, ?_⟩
      rw [hdone, if_pos (by simp [h1, h2])]
      simp [hv, staleServe]
  · intro hneg
    have hc : ¬(isRateLimitOr5xx e.statusOf && isStaleOk (cacheGet s.cache k) t) = true := by
      intro hc
      simp only [Bool.and_eq_true] at hc
      exact hneg ⟨(rateLimit_iff hhttp).mp hc.1, isStaleOk_iff.mp hc.2⟩
    rw [hdone, if_neg hc]

/-- Witness for C3 at a concrete input: a 404 failure is never served
stale, even though a stale-eligible entry exists. -/
theorem stale_on_error_iff_witness :
    (runResume ⟨⟨100, 1000⟩, [("k", ⟨0, 100, 1000, 200, "text/json", "A"⟩)],
        [("k", 0)], [(0, "k", .rejected (.nonRetryable 404 "nf"))], 1, 1,
        [⟨"k", .waitingOwn 0⟩]⟩ 0 500).tasks.get? 0 =
      some ⟨"k", .done (.badGateway (some 404) gatewayHint)⟩ :=
  (stale_on_error_iff _ 0 500 "k" 0 (.nonRetryable 404 "nf")
    (by decide) (by decide)
    (by intro n hn; simp [FetchError.statusOf] at hn; omega)).2
    (by rintro ⟨h1 | h1 | h1, -⟩ <;> simp [FetchError.statusOf] at h1)

/-- Claim C4 (amended): a request that awaited a failing coalesced
fetch does not proceed directly to stale fallback; it falls through to
step 3, registering its key and issuing a new upstream fetch of its
own, leaving the cache untouched. -/
theorem coalesce_fail_refetch (s : Sys) (i t : Nat) (k : String) (pid : Nat)
    (e : FetchError)
    (htask : s.tasks.get? i = some ⟨k, .waitingCoalesce pid⟩)
    (hprom : promState s pid = some (.rejected e)) :
    (runResume s i t).fetchCount = s.fetchCount + 1 ∧
    (runResume s i t).tasks.get? i = some ⟨k, .waitingOwn s.nextPid⟩ ∧
    mapGet (runResume s i t).inflight k = some s.nextPid ∧
    promState (runResume s i t) s.nextPid = some .pending ∧
    (runResume s i t).cache = s.cache := by
  have hlt : i < s.tasks.length := lt_length_of_get? htask
  simp only [runResume, htask, hprom]
  refine ⟨rfl, ?_, ?_, ?_, rfl⟩
  · exact get?_set_self _ hlt
  · exact mapGet_mapSet_self _ _ _
  · simp [promState, startOwnFetch, List.find?]

/-- Witness for C4's amended claim at a concrete input. -/
theorem coalesce_fail_refetch_witness :
    (runResume ⟨⟨100, 1000⟩, [("k", ⟨0, 100, 1000, 200, "text/json", "A"⟩)],
        [("k", 0)], [(0, "k", .rejected (.retryExhausted 500))], 1, 1,
        [⟨"k", .waitingCoalesce 0⟩]⟩ 0 210).fetchCount = 1 + 1 ∧
    (runResume ⟨⟨100, 1000⟩, [("k", ⟨0, 100, 1000, 200, "text/json", "A"⟩)],
        [("k", 0)], [(0, "k", .rejected (.retryExhausted 500))], 1, 1,
        [⟨"k", .waitingCoalesce 0⟩]⟩ 0 210).tasks.get? 0 =
      some ⟨"k", .waitingOwn 1⟩ :=
  have h := coalesce_fail_refetch
    ⟨⟨100, 1000⟩, [("k", ⟨0, 100, 1000, 200, "text/json", "A"⟩)],
      [("k", 0)], [(0, "k", .rejected (.retryExhausted 500))], 1, 1,
      [⟨"k", .waitingCoalesce 0⟩]⟩ 0 210 "k" 0 (.retryExhausted 500)
    (by decide) (by decide)
  ⟨h.1, h.2.1⟩

/-- Counterexample for C4 as stated: with a stale-eligible entry with
body "A" cached and the awaited fetch failed, the waiter (task 1) does
not resolve from the pre-existing entry: its own new fetch succeeds
with body "B" and it answers MISS, and the fetch counter shows a second
upstream fetch was issued during the run. -/
theorem coalesce_fail_refetch_cex :
    (run ⟨⟨100, 1000⟩, [("k", ⟨0, 100, 1000, 200, "application/json", "A"⟩)],
        [], [], 0, 0, [⟨"k", .notStarted⟩, ⟨"k", .notStarted⟩]⟩
      [.start 0 200, .start 1 200,
       .settle 0 [.response 500 none none "", .response 500 none none ""] 205,
       .resume 0 210, .resume 1 210,
       .settle 1 [.response 200 none (some "application/json") "B"] 220,
       .resume 1 230]).tasks.get? 1 =
      some ⟨"k", .done (.served ⟨200, "application/json", "B", .miss, none⟩)⟩ ∧
    (run ⟨⟨100, 1000⟩, [("k", ⟨0, 100, 1000, 200, "application/json", "A"⟩)],
        [], [], 0, 0, [⟨"k", .notStarted⟩, ⟨"k", .notStarted⟩]⟩
      [.start 0 200, .start 1 200,
       .settle 0 [.response 500 none none "", .response 500 none none ""] 205,
       .resume 0 210, .resume 1 210,
       .settle 1 [.response 200 none (some "application/json") "B"] 220,
       .resume 1 230]).fetchCount = 2 := by
  constructor <;> rfl

/-- Claim C9: when a request's own fetch resolved, the MISS response is
built from the cache re-read; in particular a missing read yields
status 200, body an empty JSON object, disposition MISS. -/
theorem miss_empty_fallback :
    (∀ (s : Sys) (i t : Nat) (k : String) (pid : Nat),
       s.tasks.get? i = some ⟨k, .waitingOwn pid⟩ →
       promState s pid = some .resolved →
       (runResume s i t).tasks.get? i =
         some ⟨k, .done (.served (missServe (cacheGet s.cache k)))⟩) ∧
    missServe none = ⟨200, "application/json", "\x7b\x7d", .miss, none⟩ := by
  constructor
  · intro s i t k pid htask hprom
    simp only [runResume, htask, hprom]
    exact get?_set_self _ (lt_length_of_get? htask)
  · rfl

/-- Witness for C9 at a concrete input. -/
theorem miss_empty_fallback_witness :
    (runResume ⟨⟨100, 1000⟩, [("k", ⟨5, 105, 1005, 200, "text/json", "B"⟩)],
        [("k", 0)], [(0, "k", .resolved)], 1, 1,
        [⟨"k", .waitingOwn 0⟩]⟩ 0 10).tasks.get? 0 =
      some ⟨"k", .done (.served (missServe (cacheGet
        [("k", ⟨5, 105, 1005, 200, "text/json", "B"⟩)] "k")))⟩ :=
  miss_empty_fallback.1
    ⟨⟨100, 1000⟩, [("k", ⟨5, 105, 1005, 200, "text/json", "B"⟩)],
      [("k", 0)], [(0, "k", .resolved)], 1, 1,
      [⟨"k", .waitingOwn 0⟩]⟩ 0 10 "k" 0 (by decide) (by decide)

theorem fetchGo_ok_2xx (atts : List Attempt) :
    ∀ (i : Nat) (last : Option Nat) (r : FetchSuccess),
      (fetchGo atts i last).result = .ok r → 200 ≤ r.status ∧ r.status ≤ 299 := by
  induction atts with
  | nil => intro i last r h; simp [fetchGo] at h
  | cons a rest ih =>
    intro i last r h
    match a with
    | .netError => simp [fetchGo] at h
    | .response st ra ct b =>
      cases hok : okStatus st with
      | true =>
        simp [fetchGo, hok] at h
        have h2xx : 200 ≤ st ∧ st ≤ 299 := by
          have := hok
          simp [okStatus] at this
          exact this
        rw [← h]
        exact h2xx
      | false =>
        cases hret : retryableStatus st with
        | true =>
          simp [fetchGo, hok, hret] at h
          exact ih (i + 1) (some st) r h
        | false => simp [fetchGo, hok, hret] at h

theorem mem_cacheSet {cfg : Config} {c : Cache} {k : String} {t st : Nat}
    {ct b : String} {p : String × CacheEntry}
    (h : p ∈ cacheSet cfg c k t st ct b) :
    p = (k, ⟨t, t + cfg.cacheTTLms, t + cfg.staleTTLms, st, ct, b⟩) ∨ p ∈ c :=
  mem_mapSet h

theorem runStart_cfg_cache (s : Sys) (i t : Nat) :
    (runStart s i t).cfg = s.cfg ∧ (runStart s i t).cache = s.cache := by
  unfold runStart startOrCoalesce startOwnFetch
  repeat' split
  all_goals exact ⟨rfl, rfl⟩

theorem runResume_cfg_cache (s : Sys) (i t : Nat) :
    (runResume s i t).cfg = s.cfg ∧ (runResume s i t).cache = s.cache := by
  unfold runResume startOwnFetch
  repeat' split
  all_goals exact ⟨rfl, rfl⟩

theorem runSettle_cfg (s : Sys) (pid : Nat) (atts : List Attempt) (t : Nat) :
    (runSettle s pid atts t).cfg = s.cfg := by
  unfold runSettle
  repeat' split
  all_goals rfl

theorem runSettle_cache_cases (s : Sys) (pid : Nat) (atts : List Attempt)
    (t : Nat) :
    (runSettle s pid atts t).cache = s.cache ∨
      ∃ (k : String) (tm : Nat) (r : FetchSuccess),
        (runSettle s pid atts t).cache =
          cacheSet s.cfg s.cache k tm r.status (headerOrJson r.contentType) r.body ∧
        (fetchWithRetry (atts.take 2)).result = .ok r := by
  unfold runSettle
  split
  · split
    next r hres => exact Or.inr ⟨_, t, r, rfl, hres⟩
    next e hres => exact Or.inl rfl
  · exact Or.inl rfl

/-- Any step leaves the configuration alone and either leaves the cache
alone or performs exactly one `cacheSet` of a fetch success, whose
status is necessarily 2xx. -/
theorem step_cache_cases (s : Sys) (ev : Event) :
    (step s ev).cfg = s.cfg ∧
    ((step s ev).cache = s.cache ∨
      ∃ (k : String) (tm : Nat) (r : FetchSuccess),
        (step s ev).cache =
          cacheSet s.cfg s.cache k tm r.status (headerOrJson r.contentType) r.body ∧
        200 ≤ r.status ∧ r.status ≤ 299) := by
  cases ev with
  | start i t =>
    exact ⟨(runStart_cfg_cache s i t).1, Or.inl (runStart_cfg_cache s i t).2⟩
  | resume i t =>
    exact ⟨(runResume_cfg_cache s i t).1, Or.inl (runResume_cfg_cache s i t).2⟩
  | settle pid atts t =>
    refine ⟨runSettle_cfg s pid atts t, ?_⟩
    rcases runSettle_cache_cases s pid atts t with h | ⟨k, tm, r, heq, hres⟩
    · exact Or.inl h
    · exact Or.inr ⟨k, tm, r, heq, fetchGo_ok_2xx (atts.take 2) 0 none r hres⟩

/-- Claim C8: a store writes the entry with `storedAt = now`,
`freshUntil = now + freshTTL`, `staleUntil = now + staleTTL`; and under
the precondition `staleTTL ≥ freshTTL`, any run of the system preserves
the invariant that every cached entry has `staleUntil ≥ freshUntil`. -/
theorem cache_window_invariant :
    (∀ (cfg : Config) (c : Cache) (k : String) (t st : Nat) (ct b : String),
       cacheGet (cacheSet cfg c k t st ct b) k =
         some ⟨t, t + cfg.cacheTTLms, t + cfg.staleTTLms, st, ct, b⟩) ∧
    (∀ (s : Sys) (evs : List Event),
       s.cfg.cacheTTLms ≤ s.cfg.staleTTLms →
       (∀ p ∈ s.cache, p.2.expiresAt ≤ p.2.staleUntil) →
       ∀ p ∈ (run s evs).cache, p.2.expiresAt ≤ p.2.staleUntil) := by
  constructor
  · intro cfg c k t st ct b
    exact mapGet_mapSet_self _ _ _
  · intro s evs
    induction evs generalizing s with
    | nil => intro _ h2; exact h2
    | cons ev evs ih =>
      intro hcfg hinv
      have hstep := step_cache_cases s ev
      show ∀ p ∈ (run (step s ev) evs).cache, _
      apply ih
      · rw [hstep.1]; exact hcfg
      · rcases hstep.2 with heq | ⟨k, t, r, heq, -, -⟩
        · rw [heq]; exact hinv
        · rw [heq]
          intro p hp
          rcases mem_cacheSet hp with rfl | hp'
          · simpa using Nat.add_le_add_left hcfg t
          · exact hinv p hp'

/-- Witness for C8 at a concrete input: the entry stored by a settle at
time 5 under freshTTL 100, staleTTL 1000. -/
theorem cache_window_invariant_witness :
    (⟨5, 105, 1005, 200, "application/json", "A"⟩ : CacheEntry).expiresAt ≤
      (⟨5, 105, 1005, 200, "application/json", "A"⟩ : CacheEntry).staleUntil :=
  cache_window_invariant.2
    ⟨⟨100, 1000⟩, [], [], [], 0, 0, [⟨"k", .notStarted⟩]⟩
    [.start 0 0, .settle 0 [.response 200 none none "A"] 5]
    (by decide) (by simp)
    ("k", ⟨5, 105, 1005, 200, "application/json", "A"⟩) (by decide)

/-- Claim C10: the fetcher returns a response only when its status is
2xx, and any run of the system preserves the invariant that every
cached entry has a 2xx status, so no error status is ever cached. -/
theorem cached_status_2xx :
    (∀ (atts : List Attempt) (r : FetchSuccess),
       (fetchWithRetry atts).result = .ok r → 200 ≤ r.status ∧ r.status ≤ 299) ∧
    (∀ (s : Sys) (evs : List Event),
       (∀ p ∈ s.cache, 200 ≤ p.2.status ∧ p.2.status ≤ 299) →
       ∀ p ∈ (run s evs).cache, 200 ≤ p.2.status ∧ p.2.status ≤ 299) := by
  constructor
  · intro atts r h
    exact fetchGo_ok_2xx atts 0 none r h
  · intro s evs
    induction evs generalizing s with
    | nil => intro h2; exact h2
    | cons ev evs ih =>
      intro hinv
      have hstep := step_cache_cases s ev
      show ∀ p ∈ (run (step s ev) evs).cache, _
      apply ih
      rcases hstep.2 with heq | ⟨k, t, r, heq, hlo, hhi⟩
      · rw [heq]; exact hinv
      · rw [heq]
        intro p hp
        rcases mem_cacheSet hp with rfl | hp'
        · exact ⟨hlo, hhi⟩
        · exact hinv p hp'

theorem run_append (s : Sys) (l1 l2 : List Event) :
    run s (l1 ++ l2) = run (run s l1) l2 :=
  List.foldl_append ..

theorem runStart_none (s : Sys) (i t : Nat) (h : s.tasks.get? i = none) :
    runStart s i t = s := by
  simp only [runStart, h]

theorem runStart_already (s : Sys) (i t : Nat) (tk : Task)
    (htask : s.tasks.get? i = some tk) (h : tk.pc ≠ .notStarted) :
    runStart s i t = s := by
  cases tk with
  | mk key pc =>
    cases pc with
    | notStarted => exact absurd rfl h
    | waitingCoalesce pid => simp only [runStart, htask]
    | waitingOwn pid => simp only [runStart, htask]
    | done out => simp only [runStart, htask]

theorem runStart_coalesce (s : Sys) (i t : Nat) (k : String) (pid : Nat)
    (htask : s.tasks.get? i = some ⟨k, .notStarted⟩)
    (hcache : cacheGet s.cache k = none)
    (hinf : mapGet s.inflight k = some pid) :
    runStart s i t = { s with tasks := s.tasks.set i ⟨k, .waitingCoalesce pid⟩ } := by
  simp only [runStart, htask, hcache, startOrCoalesce, hinf]

theorem runStart_fresh_miss_own (s : Sys) (i t : Nat) (k : String)
    (htask : s.tasks.get? i = some ⟨k, .notStarted⟩)
    (hcache : cacheGet s.cache k = none)
    (hinf : mapGet s.inflight k = none) :
    runStart s i t = startOwnFetch s i k := by
  simp only [runStart, htask, hcache, startOrCoalesce, hinf]

theorem runResume_none (s : Sys) (i t : Nat) (h : s.tasks.get? i = none) :
    runResume s i t = s := by
  simp only [runResume, h]

theorem runResume_notStarted (s : Sys) (i t : Nat) (k : String)
    (htask : s.tasks.get? i = some ⟨k, .notStarted⟩) :
    runResume s i t = s := by
  simp only [runResume, htask]

theorem runResume_done (s : Sys) (i t : Nat) (k : String) (out : Outcome)
    (htask : s.tasks.get? i = some ⟨k, .done out⟩) :
    runResume s i t = s := by
  simp only [runResume, htask]

theorem runResume_own_resolved (s : Sys) (i t : Nat) (k : String) (pid : Nat)
    (htask : s.tasks.get? i = some ⟨k, .waitingOwn pid⟩)
    (hprom : promState s pid = some .resolved) :
    runResume s i t =
      { s with
        tasks := s.tasks.set i
          ⟨k, .done (.served (missServe (cacheGet s.cache k)))⟩
        inflight := mapDel s.inflight k } := by
  simp only [runResume, htask, hprom]

theorem runResume_coalesce_resolved (s : Sys) (i t : Nat) (k : String)
    (pid : Nat) (v : CacheEntry)
    (htask : s.tasks.get? i = some ⟨k, .waitingCoalesce pid⟩)
    (hprom : promState s pid = some .resolved)
    (hcache : cacheGet s.cache k = some v) :
    runResume s i t =
      { s with
        tasks := s.tasks.set i ⟨k, .done (.served (hitAfterWaitServe v))⟩ } := by
  simp only [runResume, htask, hprom, hcache]

/-- The first request of a burst becomes the owner of the single
initial fetch: afterwards the state is in phase A. -/
theorem phaseA_init (cfg : Config) (k : String) (n i₀ t₀ : Nat) (h : i₀ < n) :
    phaseA k
      (runStart ⟨cfg, [], [], [], 0, 0, List.replicate n ⟨k, .notStarted⟩⟩ i₀ t₀) := by
  have hget : (List.replicate n (⟨k, .notStarted⟩ : Task)).get? i₀ =
      some ⟨k, .notStarted⟩ := by
    simp [List.get?_eq_getElem?, List.getElem?_replicate, h]
  rw [runStart_fresh_miss_own
    ⟨cfg, [], [], [], 0, 0, List.replicate n ⟨k, .notStarted⟩⟩ i₀ t₀ k hget rfl rfl]
  refine ⟨rfl, rfl, rfl, rfl, rfl, ?_⟩
  intro tk htk
  rcases List.mem_or_eq_of_mem_set htk with hmem | rfl
  · rw [List.eq_of_mem_replicate hmem]
    exact ⟨rfl, Or.inl rfl⟩
  · exact ⟨rfl, Or.inr (Or.inl rfl)⟩

/-- While the initial fetch is pending, any further request start
coalesces on it; phase A is preserved. -/
theorem phaseA_step (k : String) (s : Sys) (ev : Event)
    (hA : phaseA k s) (hev : ev.isStart = true) : phaseA k (step s ev) := by
  obtain ⟨hc, hi, hp, hn, hf, ht⟩ := hA
  cases ev with
  | resume j t => simp [Event.isStart] at hev
  | settle pid atts t => simp [Event.isStart] at hev
  | start j t =>
    show phaseA k (runStart s j t)
    cases hget : s.tasks.get? j with
    | none =>
      rw [runStart_none s j t hget]
      exact ⟨hc, hi, hp, hn, hf, ht⟩
    | some tk =>
      obtain ⟨hkey, hpc⟩ := ht _ (List.get?_mem hget)
      rcases hpc with hpc | hpc | hpc
      · have htk : tk = ⟨k, .notStarted⟩ := by
          cases tk
          simp only at hkey hpc
          rw [hkey, hpc]
        rw [htk] at hget
        have hcache : cacheGet s.cache k = none := by rw [hc]; rfl
        have hinf : mapGet s.inflight k = some 0 := by
          rw [hi]; simp [mapGet, List.find?]
        rw [runStart_coalesce s j t k 0 hget hcache hinf]
        refine ⟨hc, hi, hp, hn, hf, ?_⟩
        intro tk2 htk2
        rcases List.mem_or_eq_of_mem_set htk2 with hmem | rfl
        · exact ht tk2 hmem
        · exact ⟨rfl, Or.inr (Or.inr rfl)⟩
      · rw [runStart_already s j t tk hget (by rw [hpc]; exact fun hx => TaskPC.noConfusion hx)]
        exact ⟨hc, hi, hp, hn, hf, ht⟩
      · rw [runStart_already s j t tk hget (by rw [hpc]; exact fun hx => TaskPC.noConfusion hx)]
        exact ⟨hc, hi, hp, hn, hf, ht⟩

theorem phaseA_run (k : String) (s : Sys) (evs : List Event)
    (hA : phaseA k s) (hevs : ∀ ev ∈ evs, ev.isStart = true) :
    phaseA k (run s evs) := by
  induction evs generalizing s with
  | nil => exact hA
  | cons ev evs ih =>
    exact ih (step s ev) (phaseA_step k s ev hA (hevs ev (by simp)))
      (fun e he => hevs e (by simp [he]))

/-- The successful settlement of the single fetch moves phase A to
phase B: the entry is cached and the promise resolved, with the fetch
counter still 1. -/
theorem phaseA_settle (k : String) (s : Sys) (atts : List Attempt) (ts : Nat)
    (r : FetchSuccess) (hA : phaseA k s)
    (hok : (fetchWithRetry (atts.take 2)).result = .ok r) :
    phaseB k (runSettle s 0 atts ts) := by
  obtain ⟨hc, hi, hp, hn, hf, ht⟩ := hA
  have hfind : s.promises.find? (fun p => p.1 == 0) = some (0, k, .pending) := by
    rw [hp]; simp [List.find?]
  simp only [runSettle, hfind, hok]
  refine ⟨⟨_, mapGet_mapSet_self _ _ _⟩, ?_, hf, ?_⟩
  · rw [hp]; simp [promSet, List.filter]
  · intro tk htk
    obtain ⟨hkey, hpc⟩ := ht tk htk
    exact ⟨hkey, by tauto⟩

/-- After the fetch resolved, every resumption serves from the cache
(HIT-AFTER-WAIT for waiters, MISS for the owner) without invoking the
fetcher again; phase B is preserved. -/
theorem phaseB_step (k : String) (s : Sys) (ev : Event)
    (hB : phaseB k s) (hev : ev.isResume = true) : phaseB k (step s ev) := by
  obtain ⟨⟨v, hv⟩, hp, hf, ht⟩ := hB
  cases ev with
  | start j t => simp [Event.isResume] at hev
  | settle pid atts t => simp [Event.isResume] at hev
  | resume j t =>
    show phaseB k (runResume s j t)
    cases hget : s.tasks.get? j with
    | none =>
      rw [runResume_none s j t hget]
      exact ⟨⟨v, hv⟩, hp, hf, ht⟩
    | some tk =>
      obtain ⟨hkey, hpc⟩ := ht _ (List.get?_mem hget)
      have hprom : promState s 0 = some .resolved := by
        simp [promState, hp, List.find?]
      rcases hpc with hpc | hpc | hpc | ⟨out, hpc⟩
      · have htk : tk = ⟨k, .notStarted⟩ := by
          cases tk
          simp only at hkey hpc
          rw [hkey, hpc]
        rw [htk] at hget
        rw [runResume_notStarted s j t k hget]
        exact ⟨⟨v, hv⟩, hp, hf, ht⟩
      · have htk : tk = ⟨k, .waitingOwn 0⟩ := by
          cases tk
          simp only at hkey hpc
          rw [hkey, hpc]
        rw [htk] at hget
        rw [runResume_own_resolved s j t k 0 hget hprom]
        refine ⟨⟨v, hv⟩, hp, hf, ?_⟩
        intro tk2 htk2
        rcases List.mem_or_eq_of_mem_set htk2 with hmem | rfl
        · exact ht tk2 hmem
        · exact ⟨rfl, Or.inr (Or.inr (Or.inr ⟨_, rfl⟩))⟩
      · have htk : tk = ⟨k, .waitingCoalesce 0⟩ := by
          cases tk
          simp only at hkey hpc
          rw [hkey, hpc]
        rw [htk] at hget
        rw [runResume_coalesce_resolved s j t k 0 v hget hprom hv]
        refine ⟨⟨v, hv⟩, hp, hf, ?_⟩
        intro tk2 htk2
        rcases List.mem_or_eq_of_mem_set htk2 with hmem | rfl
        · exact ht tk2 hmem
        · exact ⟨rfl, Or.inr (Or.inr (Or.inr ⟨_, rfl⟩))⟩
      · have htk : tk = ⟨k, .done out⟩ := by
          cases tk
          simp only at hkey hpc
          rw [hkey, hpc]
        rw [htk] at hget
        rw [runResume_done s j t k out hget]
        exact ⟨⟨v, hv⟩, hp, hf, ht⟩

theorem phaseB_run (k : String) (s : Sys) (evs : List Event)
    (hB : phaseB k s) (hevs : ∀ ev ∈ evs, ev.isResume = true) :
    phaseB k (run s evs) := by
  induction evs generalizing s with
  | nil => exact hB
  | cons ev evs ih =>
    exact ih (step s ev) (phaseB_step k s ev hB (hevs ev (by simp)))
      (fun e he => hevs e (by simp [he]))

/-- Claim C1 (amended): for a burst of same-key requests with no
existing cache entry — all started while the single registered fetch is
pending — the fetcher is invoked exactly once provided that fetch
succeeds; and a request's in-flight registry entry for its key is
removed when that request observes its own fetch settle, on success and
failure alike. -/
theorem single_flight_on_success :
    (∀ (cfg : Config) (k : String) (n i₀ t₀ : Nat) (starts : List Event)
        (atts : List Attempt) (ts : Nat) (rest : List Event) (r : FetchSuccess),
       i₀ < n →
       (∀ ev ∈ starts, ev.isStart = true) →
       (∀ ev ∈ rest, ev.isResume = true) →
       (fetchWithRetry (atts.take 2)).result = .ok r →
       (run ⟨cfg, [], [], [], 0, 0, List.replicate n ⟨k, .notStarted⟩⟩
         (.start i₀ t₀ :: (starts ++ .settle 0 atts ts :: rest))).fetchCount = 1) ∧
    (∀ (s : Sys) (j u : Nat) (k : String) (pid : Nat) (ps : PromState),
       s.tasks.get? j = some ⟨k, .waitingOwn pid⟩ →
       promState s pid = some ps → ps ≠ .pending →
       mapGet (runResume s j u).inflight k = none) := by
  constructor
  · intro cfg k n i₀ t₀ starts atts ts rest r h0 hstarts hrest hok
    have h1 : phaseA k
        (runStart ⟨cfg, [], [], [], 0, 0, List.replicate n ⟨k, .notStarted⟩⟩ i₀ t₀) :=
      phaseA_init cfg k n i₀ t₀ h0
    have h2 := phaseA_run k _ starts h1 hstarts
    have h3 := phaseA_settle k _ atts ts r h2 hok
    have h4 := phaseB_run k _ rest h3 hrest
    show (run (runStart ⟨cfg, [], [], [], 0, 0, List.replicate n ⟨k, .notStarted⟩⟩ i₀ t₀)
      (starts ++ .settle 0 atts ts :: rest)).fetchCount = 1
    rw [run_append]
    exact h4.2.2.1
  · intro s j u k pid ps htask hprom hps
    cases ps with
    | pending => exact absurd rfl hps
    | resolved =>
      simp only [runResume, htask, hprom]
      exact mapGet_mapDel_self _ _
    | rejected e =>
      simp only [runResume, htask, hprom]
      exact mapGet_mapDel_self _ _

/-- Witness for C1's amended claim at concrete inputs: two concurrent
requests, a successful fetch, one fetcher invocation; and a concrete
resolved owner whose resumption clears the in-flight entry. -/
theorem single_flight_on_success_witness :
    (run ⟨⟨120000, 900000⟩, [], [], [], 0, 0,
        List.replicate 2 ⟨"k", .notStarted⟩⟩
      [.start 0 5, .start 1 5, .settle 0 [.response 200 none none "X"] 9,
       .resume 0 12, .resume 1 12]).fetchCount = 1 ∧
    mapGet (runResume ⟨⟨100, 1000⟩, [], [("k", 0)], [(0, "k", .resolved)], 1, 1,
      [⟨"k", .waitingOwn 0⟩]⟩ 0 7).inflight "k" = none := by
  constructor
  · exact single_flight_on_success.1 ⟨120000, 900000⟩ "k" 2 0 5 [.start 1 5]
      [.response 200 none none "X"] 9 [.resume 0 12, .resume 1 12]
      ⟨200, none, "X"⟩ (by omega) (by decide) (by decide) (by decide)
  · exact single_flight_on_success.2 _ 0 7 "k" 0 .resolved
      (by decide) (by decide) (by decide)

/-- Counterexample for C1 as stated: two concurrent requests to the
same key with no existing cache entry (both start while the first fetch
is pending), yet the fetcher is invoked twice, because when the shared
fetch fails the coalesced waiter falls through to issuing its own
fetch.  The schedule is JavaScript-realizable: the owner's continuation
resumes before the waiter's. -/
theorem single_flight_cex :
    (run ⟨⟨120000, 900000⟩, [], [], [], 0, 0,
        [⟨"k", .notStarted⟩, ⟨"k", .notStarted⟩]⟩
      [.start 0 5, .start 1 5,
       .settle 0 [.response 500 none none "", .response 500 none none ""] 10,
       .resume 0 12, .resume 1 12]).fetchCount = 2 := rfl

/-- Witness for C10 at a concrete input. -/
theorem cached_status_2xx_witness :
    200 ≤ (⟨5, 105, 1005, 200, "application/json", "A"⟩ : CacheEntry).status ∧
      (⟨5, 105, 1005, 200, "application/json", "A"⟩ : CacheEntry).status ≤ 299 :=
  cached_status_2xx.2
    ⟨⟨100, 1000⟩, [], [], [], 0, 0, [⟨"k", .notStarted⟩]⟩
    [.start 0 0, .settle 0 [.response 200 none none "A"] 5]
    (by simp)
    ("k", ⟨5, 105, 1005, 200, "application/json", "A"⟩) (by decide)

end YahooProxy
